import Mathlib

/- Verification development for the template virtual machine at the core of
   the go-xslate repository: a shallow embedding of the VM value model, the
   operand stack and frame discipline (util/frame.go), and the opcode
   handlers (vm package), together with theorems about their documented
   properties.

   Conventions of the embedding:
   * Go `interface{}` values are modelled by the inductive `Value`.
     Go float64 is abstracted to exact rationals (`Rat`); rounding is not
     modelled, and non-finite float results (Inf/NaN) are flagged as
     explicit model errors rather than misrepresented as finite values.
   * Handlers that can panic in Go (reflect on nil, bad casts, negative
     slice index) return `Except VMErr State`; `.error` marks an aborted
     render, `.ok` a normal completion.
   * `reflect.Value` wrappers are transparent: a wrapped slice is modelled
     by the sequence value itself. -/

/-- Dynamic VM value (`interface{}` in the source): nil, signed integer,
unsigned integer, float (abstracted to `Rat`), bool, plain string, raw
string (the distinct `rawString` type of the source), sequence
(array/slice), or record (struct with named fields; `tyid` identifies the
host type). -/
inductive Value where
  | vnil
  | vint (i : Int)
  | vuint (u : Nat)
  | vfloat (q : Rat)
  | vbool (b : Bool)
  | vstr (s : String)
  | vraw (s : String)
  | vseq (xs : List Value)
  | vrec (tyid : Nat) (fields : List (String × Value))
deriving Repr

mutual

/-- Modelled from the spec (§4.1, the source's `interfaceToString` is not
under src/): nil → ""; raw string → its bytes; string → itself; bool →
"true"/"false"; integers → decimal; float → decimal rendering (Go's
shortest round-trip float formatting is abstracted); sequences and records
get a stable debug rendering. -/
def interfaceToString : Value → String
  | .vnil => ""
  | .vint i => toString i
  | .vuint u => toString u
  | .vfloat q => if q.den = 1 then toString q.num else toString q.num ++ "/" ++ toString q.den
  | .vbool b => cond b "true" "false"
  | .vstr s => s
  | .vraw s => s
  | .vseq xs => "[" ++ istrList xs ++ "]"
  | .vrec _ fs => "(" ++ istrFields fs ++ ")"

/-- Renders the elements of a sequence separated by spaces. -/
def istrList : List Value → String
  | [] => ""
  | [x] => interfaceToString x
  | x :: rest => interfaceToString x ++ " " ++ istrList rest

/-- Renders the field values of a record separated by spaces. -/
def istrFields : List (String × Value) → String
  | [] => ""
  | [(_, v)] => interfaceToString v
  | (_, v) :: rest => interfaceToString v ++ " " ++ istrFields rest

end


mutual

/-- Structural equality on values, mirroring Go `==` on comparable
dynamic types. Used by `goEq` below; values with different constructors
correspond to different Go dynamic types and compare unequal. -/
def valueBeq : Value → Value → Bool
  | .vnil, .vnil => true
  | .vint a, .vint b => a == b
  | .vuint a, .vuint b => a == b
  | .vfloat a, .vfloat b => a == b
  | .vbool a, .vbool b => a == b
  | .vstr a, .vstr b => a == b
  | .vraw a, .vraw b => a == b
  | .vseq xs, .vseq ys => valueListBeq xs ys
  | .vrec t fs, .vrec u gs => t == u && valueFieldsBeq fs gs
  | _, _ => false

/-- Elementwise `valueBeq` on sequences. -/
def valueListBeq : List Value → List Value → Bool
  | [], [] => true
  | x :: xs, y :: ys => valueBeq x y && valueListBeq xs ys
  | _, _ => false

/-- Fieldwise `valueBeq` on record fields. -/
def valueFieldsBeq : List (String × Value) → List (String × Value) → Bool
  | [], [] => true
  | (n, x) :: xs, (m, y) :: ys => n == m && valueBeq x y && valueFieldsBeq xs ys
  | _, _ => false

end

/-- Go `==` on two `interface{}` values: `none` models the run-time panic
on uncomparable dynamic types (slices); otherwise values of different
dynamic types compare unequal and values of the same type compare
structurally. (Record comparison in Go is fieldwise and can itself panic
on an uncomparable field; that nested edge case is modelled as plain
structural comparison — no claim depends on it.) -/
def goEq (a b : Value) : Option Bool :=
  match a, b with
  | .vseq _, .vseq _ => none
  | x, y => some (valueBeq x y)

/-- Modelled from the spec (§4.1, the source's `interfaceToBool` is not
under src/): nil → false; bool → itself; numbers → `v ≠ 0`; strings →
nonempty; sequences → nonempty; records → true. -/
def interfaceToBool : Value → Bool
  | .vnil => false
  | .vbool b => b
  | .vint i => i != 0
  | .vuint u => u != 0
  | .vfloat q => q != 0
  | .vstr s => s != ""
  | .vraw s => s != ""
  | .vseq xs => !xs.isEmpty
  | .vrec _ _ => true

/-- HTML escaping of one character, following Go's `html.EscapeString`
five-entity mapping. -/
def escapeChar (c : Char) : String :=
  if c = '&' then "&amp;"
  else if c = '\'' then "&#39;"
  else if c = '<' then "&lt;"
  else if c = '>' then "&gt;"
  else if c = '"' then "&#34;"
  else String.singleton c

/-- Go's `html.EscapeString`: escapes the five special HTML characters. -/
def htmlEscape (s : String) : String :=
  String.join (s.data.map escapeChar)


/-- Is `c` in the RFC 3986 "unreserved" set (kept verbatim by URI
escaping)? -/
def isUnreservedUri (c : Char) : Bool :=
  c.isAlphanum || c = '-' || c = '.' || c = '_' || c = '~'

/-- One hexadecimal digit (uppercase), for percent-encoding. -/
def hexDigit (n : Nat) : Char :=
  if n < 10 then Char.ofNat (48 + n) else Char.ofNat (55 + n)

/-- Percent-encoding of one byte as three characters. -/
def percentByte (b : Nat) : String :=
  String.mk ['%', hexDigit (b / 16 % 16), hexDigit (b % 16)]

/-- UTF-8 bytes of a character, by the standard bit layout. -/
def utf8Bytes (c : Char) : List Nat :=
  let n := c.toNat
  if n < 0x80 then [n]
  else if n < 0x800 then [0xC0 + n / 64, 0x80 + n % 64]
  else if n < 0x10000 then [0xE0 + n / 4096, 0x80 + n / 64 % 64, 0x80 + n % 64]
  else [0xF0 + n / 262144, 0x80 + n / 4096 % 64, 0x80 + n / 64 % 64, 0x80 + n % 64]

/-- Modelled from the spec (§4.5, the source's `escapeUriString` is not
under src/): percent-encode every byte of the UTF-8 form except characters
in the RFC 3986 unreserved set. -/
def escapeUriString (s : String) : String :=
  String.join (s.data.map fun c =>
    if isUnreservedUri c then String.singleton c
    else String.join ((utf8Bytes c).map percentByte))

/-- Parses an optional sign followed by one or more decimal digits, the
whole string (Go `strconv.ParseInt` in base 10). -/
def parseIntS (s : String) : Option Int :=
  let core (ds : List Char) : Option Nat :=
    if ds.isEmpty || !ds.all Char.isDigit then none
    else some (ds.foldl (fun a c => a * 10 + (c.toNat - 48)) 0)
  match s.data with
  | '-' :: rest => (core rest).map fun n => -(n : Int)
  | '+' :: rest => (core rest).map fun n => (n : Int)
  | ds => (core ds).map fun n => (n : Int)

/-- Parses a decimal number with an optional fractional part as an exact
rational (Go `strconv.ParseFloat`, with rounding abstracted; exponent
notation is not modelled). -/
def parseFloatS (s : String) : Option Rat :=
  let digitsVal (ds : List Char) : Nat :=
    ds.foldl (fun a c => a * 10 + (c.toNat - 48)) 0
  let core (ds : List Char) : Option Rat :=
    match ds.span Char.isDigit with
    | (ip, []) => if ip.isEmpty then none else some ((digitsVal ip : Int) : Rat)
    | (ip, '.' :: fp) =>
        if (ip.isEmpty && fp.isEmpty) || !fp.all Char.isDigit then none
        else some (((digitsVal ip : Int) : Rat) +
          (digitsVal fp : Rat) / ((10 : Rat) ^ fp.length))
    | _ => none
  match s.data with
  | '-' :: rest => (core rest).map Neg.neg
  | '+' :: rest => core rest
  | ds => core ds


/-- A numeric view of a value: signed, unsigned, or float kind. -/
inductive NumV where
  | ni (i : Int)
  | nu (u : Nat)
  | nf (q : Rat)
deriving Repr

/-- A pair of operands promoted to a common numeric kind, as produced by
`alignTypesForArithmetic` (the Go code switches on the shared
`reflect.Kind`). -/
inductive Aligned where
  | ints (a b : Int)
  | uints (a b : Nat)
  | floats (a b : Rat)
deriving Repr

/-- Go conversion of a signed 64-bit value to uint64 (two's-complement
reinterpretation). -/
def intToUint64 (i : Int) : Nat := (i % (2 : Int) ^ 64).toNat

/-- Go int64 wrap-around of an unbounded integer result. -/
def wrapInt64 (i : Int) : Int := (i + 2 ^ 63) % 2 ^ 64 - 2 ^ 63

/-- Go uint64 wrap-around of an unbounded natural result. -/
def wrapUint64 (i : Int) : Nat := (i % (2 : Int) ^ 64).toNat

/-- Modelled from the spec (§4.1, not under src/): the numeric view of one
operand. Numeric values keep their kind; anything else is stringified with
`interfaceToString` and parsed, first as an integer, then as a float;
parse failure yields zero (of int kind, promoted below). -/
def toNumV (v : Value) : NumV :=
  match v with
  | .vint i => .ni i
  | .vuint u => .nu u
  | .vfloat q => .nf q
  | other =>
    match parseIntS (interfaceToString other) with
    | some i => .ni i
    | none =>
      match parseFloatS (interfaceToString other) with
      | some q => .nf q
      | none => .ni 0

/-- Modelled from the spec (§4.1, not under src/): promote the two
operands to a common kind along the lattice int < uint < float. -/
def alignTypesForArithmetic (a b : Value) : Aligned :=
  match toNumV a, toNumV b with
  | .ni x, .ni y => .ints x y
  | .nu x, .nu y => .uints x y
  | .nf x, .nf y => .floats x y
  | .ni x, .nu y => .uints (intToUint64 x) y
  | .nu x, .ni y => .uints x (intToUint64 y)
  | .ni x, .nf y => .floats (x : Rat) y
  | .nf x, .ni y => .floats x (y : Rat)
  | .nu x, .nf y => .floats (x : Rat) y
  | .nf x, .nu y => .floats x (y : Rat)

/-- Modelled from the spec (§4.2, the Stack source is not under src/):
a growable array of values. `data` is the allocated storage (absolute
indexing from 0); `cur` is the tip cursor, the index where the next
`Push` writes, so `Cur()` equals the number of pushed entries and the
method-call protocol of §4.8 reads the invocant at `Get(mark)`.
`SetLvar` may write beyond the tip without moving it, so `Get`'s range is
bounded by the storage, not the tip. -/
structure Stack where
  data : List Value
  cur : Nat
deriving Repr

/-- Writes `v` at index `i`, first padding the storage with nils so the
index exists (the Go stack grows on demand). -/
def setPad (l : List Value) (i : Nat) (v : Value) : List Value :=
  (l ++ List.replicate (i + 1 - l.length) Value.vnil).set i v

/-- Stack `Get(i)` with the in-range result: `none` is the out-of-range error of
the source (`util/frame.go` receives `(v, err)` and maps the error to
nil). Negative indices are out of range. -/
def Stack.get? (s : Stack) (i : Int) : Option Value :=
  if h : 0 ≤ i ∧ i.toNat < s.data.length then some (s.data.get ⟨i.toNat, h.2⟩)
  else none

/-- Stack `Get(i)` as used single-valued by the vm package: out of range → nil
(spec §4.2). -/
def Stack.getD (s : Stack) (i : Int) : Value :=
  (s.get? i).getD .vnil

/-- Stack `Set(i,v)`: grows the storage on demand; a negative index is the Go
run-time panic on a negative slice index, modelled as `none`. -/
def Stack.setV (s : Stack) (i : Int) (v : Value) : Option Stack :=
  if i < 0 then none
  else some { s with data := setPad s.data i.toNat v }

/-- Stack `Push(v)` writes at the tip and increments it (spec §4.2). -/
def Stack.push (s : Stack) (v : Value) : Stack :=
  { data := setPad s.data s.cur v, cur := s.cur + 1 }

/-- A frame (util/frame.go): a view over the shared operand stack that
remembers where the frame started (`mark`). The Go struct holds a pointer
to the stack; here the stack is passed explicitly to the frame
operations. -/
structure Frame where
  name : String
  mark : Int
deriving Repr

/-- Frame `GetLvar` (util/frame.go:42-51): reads the underlying stack at
index `i - mark` and maps the out-of-range error to nil. (The debug
`fmt.Printf` calls of the source have no semantic effect and are
omitted.) -/
def Frame.GetLvar (f : Frame) (s : Stack) (i : Int) : Value :=
  match s.get? (i - f.mark) with
  | some v => v
  | none => .vnil

/-- Frame `SetLvar` (util/frame.go:54-62): writes the underlying stack at
index `i - mark`; `none` models the abort on a negative index. -/
def Frame.SetLvar (f : Frame) (s : Stack) (i : Int) (v : Value) : Option Stack :=
  s.setV (i - f.mark) v

/-- The opcode enumeration (TXOP_* constants of the vm package), in source
order. `TXOP_max` is the sentinel count; it has no handler. -/
inductive OpType where
  | TXOP_noop
  | TXOP_nil
  | TXOP_move_to_sb
  | TXOP_move_from_sb
  | TXOP_literal
  | TXOP_fetch_s
  | TXOP_fetch_field_s
  | TXOP_mark_raw
  | TXOP_unmark_raw
  | TXOP_print
  | TXOP_print_raw
  | TXOP_save_to_lvar
  | TXOP_load_lvar
  | TXOP_add
  | TXOP_sub
  | TXOP_mul
  | TXOP_div
  | TXOP_and
  | TXOP_goto
  | TXOP_for_start
  | TXOP_for_iter
  | TXOP_html_escape
  | TXOP_uri_escape
  | TXOP_eq
  | TXOP_ne
  | TXOP_popmark
  | TXOP_pushmark
  | TXOP_push
  | TXOP_methodcall
  | TXOP_end
  | TXOP_max
deriving Repr, DecidableEq

/-- One bytecode operation: an opcode and its argument. -/
structure Op where
  opcode : OpType
  arg : Value

/-- The ways a handler can abort the render at run time, each naming the
Go panic it models. -/
inductive VMErr where
  /-- PC outside the bytecode: `CurrentOp()` indexes out of range. -/
  | badPC
  /-- A failed type assertion on an op argument (`ArgInt`). -/
  | badArgCast
  /-- A failed type assertion on a local-variable value (`for_iter`). -/
  | badLvarCast
  /-- Panic of `reflect.ValueOf(nil).Type()` on a nil value. -/
  | reflectNilType
  /-- Panic of `reflect.Value.Interface()` on the zero Value returned by a failed
  `FieldByName` lookup. -/
  | reflectZeroValue
  /-- Panic of `FieldByName` on a value whose kind is not a struct. -/
  | fieldOnNonStruct
  /-- A negative slice index (`Stack.Set`, `slice.Index`). -/
  | negIndex
  /-- Mark-stack access with no mark pushed. -/
  | emptyMarkStack
  /-- Panic of `make` with a negative length (`methodcall` when mark > tip). -/
  | negArgCount
  /-- Unsigned integer division by zero. -/
  | intDivByZero
  /-- A float result that is not finite in Go (±Inf/NaN); `Rat` cannot
  represent it, so the model flags the case instead of misstating it. -/
  | nonFiniteFloat
  /-- Go `==` on an uncomparable dynamic type (slice). -/
  | uncomparable
  /-- Dispatch on the sentinel `TXOP_max`, which has no handler. -/
  | noSuchOp
deriving Repr, DecidableEq

/-- A method resolved on an invocant, as a host capability (spec §9: the
reflection-based `MethodByName`/`Func.Call` is replaced by a registered
callable). `numIn` counts the receiver, as `Func.Type().NumIn()` does;
`call` receives the receiver as its first element, as the source builds
`args` from `Get(mark)` up. -/
structure MethodVal where
  numIn : Nat
  numOut : Nat
  call : List Value → List Value

/-- The VM execution state (spec §2/§4.4; the State source is not under
src/): registers `sa`/`sb`, the operand stack, the mark stack, the current
frame, the program counter, the bytecode, the output buffer, the variable
bag, the warning sink, and the method-resolution capability
(`MethodByName` modelled per spec §9). -/
structure State where
  ops : List Op
  pc : Int
  sa : Value
  sb : Value
  stack : Stack
  marks : List Nat
  frame : Frame
  output : String
  vars : List (String × Value)
  warnings : List String
  methods : Value → String → Option MethodVal

/-- State `Advance()`: PC += 1. -/
def advance (st : State) : State := { st with pc := st.pc + 1 }

/-- State `AdvanceBy(n)`: PC += n. -/
def advanceBy (st : State) (n : Int) : State := { st with pc := st.pc + n }

/-- State `CurrentOp()`: the operation at PC, if PC is in range. -/
def currentOp? (st : State) : Option Op :=
  if h : 0 ≤ st.pc ∧ st.pc.toNat < st.ops.length then some (st.ops.get ⟨st.pc.toNat, h.2⟩)
  else none

/-- Op `ArgInt()`: the argument viewed as an integer; a non-integer argument
is the failed type assertion (modelled from the spec §4.4). -/
def Op.argInt (op : Op) : Option Int :=
  match op.arg with
  | .vint i => some i
  | _ => none

/-- State `Warnf(...)`: records a warning in the sink; not fatal. -/
def warnf (st : State) (msg : String) : State :=
  { st with warnings := st.warnings ++ [msg] }

/-- State `AppendOutputString(s)`: appends to the output buffer. -/
def appendOutputString (st : State) (s : String) : State :=
  { st with output := st.output ++ s }

/-- Upper-cases the first rune of a field name (txFetchField; Go
`unicode.ToUpper` is modelled on the ASCII range). -/
def ucfirst (s : String) : String :=
  match s.data with
  | [] => s
  | c :: rest => String.mk (c.toUpper :: rest)

/-- Is the value the nil interface? (In Go, `reflect.ValueOf(v)` of a nil
interface is the zero `reflect.Value`, whose `Type()` panics.) -/
def isNil : Value → Bool
  | .vnil => true
  | _ => false

/-- txEnd: does nothing; in particular PC does not advance. -/
def txEnd (st : State) : Except VMErr State := .ok st

/-- txNil: `SA ← nil`. -/
def txNil (st : State) : Except VMErr State :=
  .ok (advance { st with sa := .vnil })

/-- txNoop: PC advance only. -/
def txNoop (st : State) : Except VMErr State :=
  .ok (advance st)

/-- txMoveToSb: `SB ← SA`. -/
def txMoveToSb (st : State) : Except VMErr State :=
  .ok (advance { st with sb := st.sa })

/-- txMoveFromSb: `SA ← SB`. -/
def txMoveFromSb (st : State) : Except VMErr State :=
  .ok (advance { st with sa := st.sb })

/-- txLiteral: `SA ← arg`. -/
def txLiteral (st : State) : Except VMErr State :=
  match currentOp? st with
  | none => .error .badPC
  | some op => .ok (advance { st with sa := op.arg })

/-- txFetchSymbol: looks the key up in the variable bag; `SA ← value` or
nil when absent. (The bag's `Get` is not under src/; the spec's string
key is modelled by stringifying the argument.) -/
def txFetchSymbol (st : State) : Except VMErr State :=
  match currentOp? st with
  | none => .error .badPC
  | some op =>
    let key := interfaceToString op.arg
    match st.vars.lookup key with
    | some v => .ok (advance { st with sa := v })
    | none => .ok (advance { st with sa := .vnil })

/-- txFetchField: nil container → `SA ← nil`; a record container is
searched for the field named by the argument with its first rune
upper-cased — a hit loads the field, a miss is the `Interface()`-on-zero-
Value panic; any other container is the `FieldByName`-on-non-struct
panic. -/
def txFetchField (st : State) : Except VMErr State :=
  match st.sa with
  | .vnil => .ok (advance { st with sa := .vnil })
  | .vrec _ fields =>
    match currentOp? st with
    | none => .error .badPC
    | some op =>
      let name := ucfirst (interfaceToString op.arg)
      match fields.lookup name with
      | some v => .ok (advance { st with sa := v })
      | none => .error .reflectZeroValue
  | _ => .error .fieldOnNonStruct

/-- txMarkRaw: when SA is not already a raw string, replace it by the raw
string of its stringification. `reflect.ValueOf(st.sa).Type()` panics when
SA is nil. -/
def txMarkRaw (st : State) : Except VMErr State :=
  match st.sa with
  | .vnil => .error .reflectNilType
  | .vraw _ => .ok (advance st)
  | v => .ok (advance { st with sa := .vraw (interfaceToString v) })

/-- txUnmarkRaw: when SA is a raw string, replace it by the plain string
of its stringification. `reflect.ValueOf(st.sa).Type()` panics when SA is
nil. -/
def txUnmarkRaw (st : State) : Except VMErr State :=
  match st.sa with
  | .vnil => .error .reflectNilType
  | .vraw s => .ok (advance { st with sa := .vstr (interfaceToString (.vraw s)) })
  | _ => .ok (advance st)

/-- txPrint: nil → warn only; non-raw → append the HTML-escaped
stringification; raw → append the stringification as-is. -/
def txPrint (st : State) : Except VMErr State :=
  match st.sa with
  | .vnil => .ok (advance (warnf st "Use of nil to print\n"))
  | .vraw s => .ok (advance (appendOutputString st (interfaceToString (.vraw s))))
  | v => .ok (advance (appendOutputString st (htmlEscape (interfaceToString v))))

/-- txPrintRaw: nil → warn only; otherwise append the stringification
unescaped. -/
def txPrintRaw (st : State) : Except VMErr State :=
  match st.sa with
  | .vnil => .ok (advance (warnf st "Use of nil to print\n"))
  | v => .ok (advance (appendOutputString st (interfaceToString v)))

/-- txSaveToLvar: `CurrentFrame().SetLvar(ArgInt(), SA)`. -/
def txSaveToLvar (st : State) : Except VMErr State :=
  match currentOp? st with
  | none => .error .badPC
  | some op =>
    match op.argInt with
    | none => .error .badArgCast
    | some idx =>
      match st.frame.SetLvar st.stack idx st.sa with
      | some s2 => .ok (advance { st with stack := s2 })
      | none => .error .negIndex

/-- txLoadLvar: `SA ← CurrentFrame().GetLvar(ArgInt())`. -/
def txLoadLvar (st : State) : Except VMErr State :=
  match currentOp? st with
  | none => .error .badPC
  | some op =>
    match op.argInt with
    | none => .error .badArgCast
    | some idx => .ok (advance { st with sa := st.frame.GetLvar st.stack idx })

/-- txAdd: align SB and SA, add in the promoted kind (64-bit wrap-around
for the integer kinds). -/
def txAdd (st : State) : Except VMErr State :=
  match alignTypesForArithmetic st.sb st.sa with
  | .ints a b => .ok (advance { st with sa := .vint (wrapInt64 (a + b)) })
  | .uints a b => .ok (advance { st with sa := .vuint (wrapUint64 ((a : Int) + (b : Int))) })
  | .floats a b => .ok (advance { st with sa := .vfloat (a + b) })

/-- txSub: align SB and SA, subtract in the promoted kind. -/
def txSub (st : State) : Except VMErr State :=
  match alignTypesForArithmetic st.sb st.sa with
  | .ints a b => .ok (advance { st with sa := .vint (wrapInt64 (a - b)) })
  | .uints a b => .ok (advance { st with sa := .vuint (wrapUint64 ((a : Int) - (b : Int))) })
  | .floats a b => .ok (advance { st with sa := .vfloat (a - b) })

/-- txMul: align SB and SA, multiply in the promoted kind. -/
def txMul (st : State) : Except VMErr State :=
  match alignTypesForArithmetic st.sb st.sa with
  | .ints a b => .ok (advance { st with sa := .vint (wrapInt64 (a * b)) })
  | .uints a b => .ok (advance { st with sa := .vuint (wrapUint64 ((a : Int) * (b : Int))) })
  | .floats a b => .ok (advance { st with sa := .vfloat (a * b) })

/-- txDiv: align SB and SA; two ints are first converted to float and
divided as floats; two uints divide in unsigned arithmetic (a zero
divisor is the Go integer-division panic); floats divide as floats. A
zero float divisor yields a non-finite value in Go, which `Rat` cannot
represent: the model flags that case as `nonFiniteFloat` instead of
producing a wrong finite value. -/
def txDiv (st : State) : Except VMErr State :=
  match alignTypesForArithmetic st.sb st.sa with
  | .ints a b =>
    if b = 0 then .error .nonFiniteFloat
    else .ok (advance { st with sa := .vfloat ((a : Rat) / (b : Rat)) })
  | .uints a b =>
    if b = 0 then .error .intDivByZero
    else .ok (advance { st with sa := .vuint (a / b) })
  | .floats a b =>
    if b = 0 then .error .nonFiniteFloat
    else .ok (advance { st with sa := .vfloat (a / b) })

/-- txAnd: truthy SA falls through (PC+1); otherwise jump by the integer
argument. -/
def txAnd (st : State) : Except VMErr State :=
  if interfaceToBool st.sa then .ok (advance st)
  else
    match currentOp? st with
    | none => .error .badPC
    | some op =>
      match op.argInt with
      | none => .error .badArgCast
      | some n => .ok (advanceBy st n)

/-- txGoto: unconditional jump by the integer argument. -/
def txGoto (st : State) : Except VMErr State :=
  match currentOp? st with
  | none => .error .badPC
  | some op =>
    match op.argInt with
    | none => .error .badArgCast
    | some n => .ok (advanceBy st n)

/-- txForStart: with `id = ArgInt()`, keep SA when it is a sequence and
substitute an empty sequence otherwise; then `SetLvar(id, nil)`,
`SetLvar(id+1, -1)`, `SetLvar(id+2, the sequence)` and advance. (The
source stores the sequence wrapped in a `reflect.Value`; the wrapper is
transparent here.) -/
def txForStart (st : State) : Except VMErr State :=
  match currentOp? st with
  | none => .error .badPC
  | some op =>
    match op.argInt with
    | none => .error .badArgCast
    | some id =>
      let slice : Value :=
        match st.sa with
        | .vseq xs => .vseq xs
        | _ => .vseq []
      match st.frame.SetLvar st.stack id .vnil with
      | none => .error .negIndex
      | some s1 =>
        match st.frame.SetLvar s1 (id + 1) (.vint (-1)) with
        | none => .error .negIndex
        | some s2 =>
          match st.frame.SetLvar s2 (id + 2) slice with
          | none => .error .negIndex
          | some s3 => .ok (advance { st with stack := s3 })

/-- txForIter: `id = SA.(int)`; increment the index slot; while the index
is below the sequence length, load the element into slot `id` and fall
through, else jump by the integer argument. The two type assertions on
the slots and the negative `slice.Index` are panics. -/
def txForIter (st : State) : Except VMErr State :=
  match st.sa with
  | .vint id =>
    match st.frame.GetLvar st.stack (id + 1) with
    | .vint index =>
      match st.frame.GetLvar st.stack (id + 2) with
      | .vseq xs =>
        let index1 := index + 1
        match st.frame.SetLvar st.stack (id + 1) (.vint index1) with
        | none => .error .negIndex
        | some s2 =>
          if (xs.length : Int) > index1 then
            if index1 < 0 then .error .negIndex
            else
              match st.frame.SetLvar s2 id (xs.getD index1.toNat .vnil) with
              | none => .error .negIndex
              | some s3 => .ok (advance { st with stack := s3 })
          else
            match currentOp? st with
            | none => .error .badPC
            | some op =>
              match op.argInt with
              | none => .error .badArgCast
              | some n => .ok (advanceBy { st with stack := s2 } n)
      | _ => .error .badLvarCast
    | _ => .error .badLvarCast
  | _ => .error .badArgCast

/-- txUriEscape: `SA ← escapeUriString(interfaceToString(SA))`. -/
def txUriEscape (st : State) : Except VMErr State :=
  .ok (advance { st with sa := .vstr (escapeUriString (interfaceToString st.sa)) })

/-- txHtmlEscape: `SA ← htmlEscape(interfaceToString(SA))`. -/
def txHtmlEscape (st : State) : Except VMErr State :=
  .ok (advance { st with sa := .vstr (htmlEscape (interfaceToString st.sa)) })

/-- txEq: `SA ← (SB == SA)` by Go interface equality. -/
def txEq (st : State) : Except VMErr State :=
  match goEq st.sb st.sa with
  | some b => .ok (advance { st with sa := .vbool b })
  | none => .error .uncomparable

/-- txNe: `SA ← (SB != SA)` by Go interface equality. -/
def txNe (st : State) : Except VMErr State :=
  match goEq st.sb st.sa with
  | some b => .ok (advance { st with sa := .vbool (!b) })
  | none => .error .uncomparable

/-- txPopmark: pop the mark stack. -/
def txPopmark (st : State) : Except VMErr State :=
  match st.marks with
  | [] => .error .emptyMarkStack
  | _ :: rest => .ok (advance { st with marks := rest })

/-- txPushmark: push the current stack tip on the mark stack. -/
def txPushmark (st : State) : Except VMErr State :=
  .ok (advance { st with marks := st.stack.cur :: st.marks })

/-- txPush: push SA on the operand stack. -/
def txPush (st : State) : Except VMErr State :=
  .ok (advance { st with stack := st.stack.push st.sa })

/-- txMethodCall: with `mark = CurrentMark()` and `tip = stack.Cur()`, the
invocant is `Get(mark)` and `args` is `Get(mark) … Get(tip-1)` (the
receiver is `args[0]`). A missing method sets `SA ← nil` (no warning in
the source); an arity mismatch warns and sets `SA ← nil`; otherwise the
call's first return value (or `""` when the method returns nothing) lands
in SA. The stack and the mark stack are not touched. -/
def txMethodCall (st : State) : Except VMErr State :=
  match currentOp? st with
  | none => .error .badPC
  | some op =>
    let name := interfaceToString op.arg
    match st.marks with
    | [] => .error .emptyMarkStack
    | mark :: _ =>
      let tip := st.stack.cur
      if tip < mark then .error .negArgCount
      else
        let inv := st.stack.getD (mark : Int)
        if isNil inv then .error .reflectNilType
        else
          let args := (List.range' mark (tip - mark)).map fun i => st.stack.getD (i : Int)
          match st.methods inv name with
          | none => .ok (advance { st with sa := .vnil })
          | some m =>
            if m.numIn ≠ args.length then
              .ok (advance (warnf { st with sa := .vnil }
                "Number of arguments do not match"))
            else
              let ret := m.call args
              .ok (advance { st with
                sa := if m.numOut = 0 then .vstr "" else ret.headD .vnil })

/-- The dispatch table built by the vm package's `init` (`ophandlers`).
`TXOP_max` has no handler; invoking it is the nil-handler panic. -/
def exec : OpType → State → Except VMErr State
  | .TXOP_noop => txNoop
  | .TXOP_nil => txNil
  | .TXOP_move_to_sb => txMoveToSb
  | .TXOP_move_from_sb => txMoveFromSb
  | .TXOP_literal => txLiteral
  | .TXOP_fetch_s => txFetchSymbol
  | .TXOP_fetch_field_s => txFetchField
  | .TXOP_mark_raw => txMarkRaw
  | .TXOP_unmark_raw => txUnmarkRaw
  | .TXOP_print => txPrint
  | .TXOP_print_raw => txPrintRaw
  | .TXOP_save_to_lvar => txSaveToLvar
  | .TXOP_load_lvar => txLoadLvar
  | .TXOP_add => txAdd
  | .TXOP_sub => txSub
  | .TXOP_mul => txMul
  | .TXOP_div => txDiv
  | .TXOP_and => txAnd
  | .TXOP_goto => txGoto
  | .TXOP_for_start => txForStart
  | .TXOP_for_iter => txForIter
  | .TXOP_html_escape => txHtmlEscape
  | .TXOP_uri_escape => txUriEscape
  | .TXOP_eq => txEq
  | .TXOP_ne => txNe
  | .TXOP_popmark => txPopmark
  | .TXOP_pushmark => txPushmark
  | .TXOP_push => txPush
  | .TXOP_methodcall => txMethodCall
  | .TXOP_end => txEnd
  | .TXOP_max => fun _ => .error .noSuchOp

/-- A fresh render state (spec §3 lifecycle): PC 0, empty stacks and
output, the single initial frame with mark 0, no methods registered. -/
def baseState : State where
  ops := []
  pc := 0
  sa := .vnil
  sb := .vnil
  stack := { data := [], cur := 0 }
  marks := []
  frame := { name := "main", mark := 0 }
  output := ""
  vars := []
  warnings := []
  methods := fun _ _ => none

/-- Concrete input for the print contract: a string needing escaping in
SA. -/
def c2St : State := { baseState with sa := .vstr "<&>" }

/-- Result state of `txPrint` on `c2St`. -/
def c2Res : State :=
  advance (appendOutputString c2St (htmlEscape (interfaceToString c2St.sa)))

/-- Concrete input for the missing-method behaviour: one record on the
stack, the mark at its index, a `methodcall "Foo"` op, and a resolver
that knows no methods. -/
def c3St : State :=
  { baseState with
    ops := [{ opcode := .TXOP_methodcall, arg := .vstr "Foo" }]
    stack := { data := [.vrec 0 []], cur := 1 }
    marks := [0] }

/-- Result state of `txMethodCall` on `c3St`. -/
def c3Res : State := advance { c3St with sa := .vnil }

/-- Concrete input for the missing-field behaviour: a record with only a
`Name` field and a `fetch_field_s "age"` op (upper-cased to `Age`). -/
def c4St : State :=
  { baseState with
    ops := [{ opcode := .TXOP_fetch_field_s, arg := .vstr "age" }]
    sa := .vrec 0 [("Name", .vstr "Ada")] }

/-- Concrete input for the mark_raw/unmark_raw round trip: a plain
string in SA. -/
def c5St : State := { baseState with sa := .vstr "x<y" }

/-- Result state of `exec TXOP_nil` on `baseState`. -/
def c6Res : State := advance { baseState with sa := .vnil }

/-- Concrete input for the for_start contract: a `for_start 0` op and a
one-element sequence in SA. -/
def c7St : State :=
  { baseState with
    ops := [{ opcode := .TXOP_for_start, arg := .vint 0 }]
    sa := .vseq [.vint 9] }

/-- Result state of `txForStart` on `c7St`: slots 0, 1, 2 written, PC
advanced. -/
def c7Res : State :=
  advance { c7St with
    stack := { data := [.vnil, .vint (-1), .vseq [.vint 9]], cur := 0 } }

/-- Concrete input for integer division: SB = 3, SA = 2. -/
def c8IntSt : State := { baseState with sb := .vint 3, sa := .vint 2 }

/-- Result of `txDiv` on `c8IntSt`: the float quotient. -/
def c8IntRes : State :=
  advance { c8IntSt with sa := .vfloat ((3 : Rat) / (2 : Rat)) }

/-- Concrete input for unsigned division: SB = 7, SA = 2. -/
def c8USt : State := { baseState with sb := .vuint 7, sa := .vuint 2 }

/-- Result of `txDiv` on `c8USt`: the truncated unsigned quotient. -/
def c8URes : State := advance { c8USt with sa := .vuint (7 / 2) }

/-- Concrete input for the methodcall frame effect: a record invocant on
the stack and a resolver returning a method of arity 2, while only one
stack entry (the receiver) is supplied — the arity-mismatch branch. -/
def c9St : State :=
  { baseState with
    ops := [{ opcode := .TXOP_methodcall, arg := .vstr "Foo" }]
    stack := { data := [.vrec 0 []], cur := 1 }
    marks := [0]
    methods := fun _ _ => some { numIn := 2, numOut := 1, call := fun _ => [.vstr "r"] } }

/-- Result state of `txMethodCall` on `c9St`: SA nil plus a warning. -/
def c9Res : State :=
  advance (warnf { c9St with sa := .vnil } "Number of arguments do not match")

theorem advance_pc (st : State) : (advance st).pc = st.pc + 1 := rfl

theorem setPad_length (l : List Value) (i : Nat) (v : Value) :
    (setPad l i v).length = max l.length (i + 1) := by
  simp [setPad]
  omega

theorem Stack.setV_elim {s : Stack} {i : Int} {v : Value} {s' : Stack}
    (h : s.setV i v = some s') :
    0 ≤ i ∧ s' = { s with data := setPad s.data i.toNat v } := by
  unfold Stack.setV at h
  split at h
  · exact absurd h (by simp)
  · exact ⟨by omega, by injection h with h; exact h.symm⟩

theorem Stack.setV_some (s : Stack) (i : Int) (v : Value) (h : 0 ≤ i) :
    s.setV i v = some { s with data := setPad s.data i.toNat v } := by
  unfold Stack.setV
  split
  · omega
  · rfl

theorem Stack.getD_eq (s : Stack) (i : Int) :
    s.getD i = if 0 ≤ i then (s.data[i.toNat]?).getD .vnil else .vnil := by
  unfold Stack.getD Stack.get?
  split
  case isTrue h =>
    rw [if_pos h.1, List.getElem?_eq_getElem h.2]
    simp [List.get_eq_getElem]
  case isFalse h =>
    by_cases h0 : 0 ≤ i
    · rw [if_pos h0, List.getElem?_eq_none (by omega)]
    · rw [if_neg h0]
      rfl

theorem setPad_getElem?_self (l : List Value) (i : Nat) (v : Value) :
    (setPad l i v)[i]? = some v := by
  unfold setPad
  exact List.getElem?_set_self (by simp; omega)

theorem setPad_getElem?_ne (l : List Value) (i : Nat) (v : Value) (j : Nat) (h : j ≠ i) :
    ((setPad l i v)[j]?).getD Value.vnil = (l[j]?).getD Value.vnil := by
  unfold setPad
  rw [List.getElem?_set_ne (Ne.symm h), List.getElem?_append]
  split
  · rfl
  · rw [List.getElem?_replicate, List.getElem?_eq_none (by omega)]
    split <;> rfl

theorem Stack.getD_setV_self {s : Stack} {i : Int} {v : Value} {s' : Stack}
    (h : s.setV i v = some s') : s'.getD i = v := by
  obtain ⟨hi, rfl⟩ := Stack.setV_elim h
  rw [Stack.getD_eq, if_pos hi]
  show ((setPad s.data i.toNat v)[i.toNat]?).getD Value.vnil = v
  rw [setPad_getElem?_self]
  rfl

theorem Stack.getD_setV_ne {s : Stack} {i : Int} {v : Value} {s' : Stack}
    (h : s.setV i v = some s') (j : Int) (hne : j ≠ i) : s'.getD j = s.getD j := by
  obtain ⟨hi, rfl⟩ := Stack.setV_elim h
  rw [Stack.getD_eq, Stack.getD_eq]
  by_cases hj : 0 ≤ j
  · rw [if_pos hj, if_pos hj]
    exact setPad_getElem?_ne s.data i.toNat v j.toNat (by omega)
  · rw [if_neg hj, if_neg hj]

theorem Frame.GetLvar_eq_getD (f : Frame) (s : Stack) (i : Int) :
    f.GetLvar s i = s.getD (i - f.mark) := by
  unfold Frame.GetLvar Stack.getD
  cases s.get? (i - f.mark) <;> rfl

/-- C10: mark_raw and unmark_raw inspect the dynamic type of SA with no
nil check, so on a nil SA both handlers abort with the
reflect-on-nil panic instead of treating nil as the empty string, even
though `interfaceToString` maps nil to `""`. -/
theorem markRaw_unmarkRaw_nil_abort (st : State) (h : st.sa = .vnil) :
    txMarkRaw st = .error .reflectNilType ∧
    txUnmarkRaw st = .error .reflectNilType ∧
    interfaceToString .vnil = "" := by
  refine ⟨?_, ?_, rfl⟩ <;> simp [txMarkRaw, txUnmarkRaw, h]

theorem markRaw_unmarkRaw_nil_abort_witness :
    baseState.sa = .vnil ∧
    txMarkRaw baseState = .error .reflectNilType ∧
    txUnmarkRaw baseState = .error .reflectNilType ∧
    interfaceToString .vnil = "" :=
  ⟨rfl, markRaw_unmarkRaw_nil_abort baseState rfl⟩

theorem txMarkRaw_ok (st : State) (h : st.sa ≠ .vnil) :
    txMarkRaw st = .ok (advance { st with sa := .vraw (interfaceToString st.sa) }) := by
  cases hsa : st.sa with
  | vnil => exact absurd hsa h
  | vraw s =>
    have e : interfaceToString (Value.vraw s) = s := rfl
    simp only [txMarkRaw, hsa, e]
    rw [← hsa]
  | vint i => simp [txMarkRaw, hsa]
  | vuint u => simp [txMarkRaw, hsa]
  | vfloat q => simp [txMarkRaw, hsa]
  | vbool b => simp [txMarkRaw, hsa]
  | vstr s => simp [txMarkRaw, hsa]
  | vseq xs => simp [txMarkRaw, hsa]
  | vrec t fs => simp [txMarkRaw, hsa]

theorem txUnmarkRaw_raw (st : State) (s : String) (h : st.sa = .vraw s) :
    txUnmarkRaw st = .ok (advance { st with sa := .vstr s }) := by
  simp [txUnmarkRaw, h, interfaceToString]

/-- C5: for a non-nil SA, mark_raw followed by unmark_raw completes and
leaves SA holding the plain string `interfaceToString` of the original
value — the pair is the identity up to stringification. -/
theorem markRaw_unmarkRaw_id (st : State) (h : st.sa ≠ .vnil) :
    ∃ st1 st2, txMarkRaw st = .ok st1 ∧ txUnmarkRaw st1 = .ok st2 ∧
      st2.sa = .vstr (interfaceToString st.sa) := by
  refine ⟨advance { st with sa := .vraw (interfaceToString st.sa) },
    advance { advance { st with sa := .vraw (interfaceToString st.sa) } with
      sa := .vstr (interfaceToString st.sa) },
    txMarkRaw_ok st h, txUnmarkRaw_raw _ _ rfl, rfl⟩

theorem markRaw_unmarkRaw_id_witness :
    c5St.sa ≠ .vnil ∧
    (∃ st1 st2, txMarkRaw c5St = .ok st1 ∧ txUnmarkRaw st1 = .ok st2 ∧
      st2.sa = .vstr (interfaceToString c5St.sa)) :=
  ⟨fun h => Value.noConfusion h, markRaw_unmarkRaw_id c5St (fun h => Value.noConfusion h)⟩

/-- C1 (code bug): `Frame.GetLvar`/`Frame.SetLvar` index the underlying
stack at `i - mark`, not `mark + i` as specified. On a frame with mark 1
over the stack `[10, 20]`, `GetLvar 0` reads index `-1`, which is out of
range, so it returns nil rather than the entry at absolute index
`mark + 0 = 1` (the value 20); `SetLvar 0` likewise aborts on the
negative index instead of writing index 1. -/
theorem frame_lvar_mark_bug :
    Frame.GetLvar { name := "x", mark := 1 }
      { data := [.vint 10, .vint 20], cur := 2 } 0 = .vnil ∧
    Frame.SetLvar { name := "x", mark := 1 }
      { data := [.vint 10, .vint 20], cur := 2 } 0 (.vint 7) = none ∧
    Stack.getD { data := [.vint 10, .vint 20], cur := 2 } (1 + 0) = .vint 20 := by
  refine ⟨rfl, rfl, rfl⟩

/-- C2: when txPrint completes, a nil SA appends nothing to the output
and records a warning; a raw SA appends its stringification unescaped
(and warns nothing); any other SA appends the HTML-escaped
stringification (and warns nothing). -/
theorem txPrint_contract (st st' : State) (h : txPrint st = .ok st') :
    (st.sa = .vnil → st'.output = st.output ∧
      st'.warnings = st.warnings ++ ["Use of nil to print\n"]) ∧
    (∀ s, st.sa = .vraw s → st'.output = st.output ++ interfaceToString st.sa ∧
      st'.warnings = st.warnings) ∧
    (st.sa ≠ .vnil → (∀ s, st.sa ≠ .vraw s) →
      st'.output = st.output ++ htmlEscape (interfaceToString st.sa) ∧
      st'.warnings = st.warnings) := by
  cases hsa : st.sa with
  | vnil =>
    simp only [txPrint, hsa] at h
    cases h
    exact ⟨fun _ => ⟨rfl, rfl⟩, fun s hc => Value.noConfusion hc,
      fun hn _ => absurd rfl hn⟩
  | vraw s =>
    simp only [txPrint, hsa] at h
    cases h
    exact ⟨fun hc => Value.noConfusion hc, fun t hc => ⟨rfl, rfl⟩,
      fun _ hr => absurd rfl (hr s)⟩
  | vint i =>
    simp only [txPrint, hsa] at h
    cases h
    exact ⟨fun hc => Value.noConfusion hc, fun s hc => Value.noConfusion hc,
      fun _ _ => ⟨rfl, rfl⟩⟩
  | vuint u =>
    simp only [txPrint, hsa] at h
    cases h
    exact ⟨fun hc => Value.noConfusion hc, fun s hc => Value.noConfusion hc,
      fun _ _ => ⟨rfl, rfl⟩⟩
  | vfloat q =>
    simp only [txPrint, hsa] at h
    cases h
    exact ⟨fun hc => Value.noConfusion hc, fun s hc => Value.noConfusion hc,
      fun _ _ => ⟨rfl, rfl⟩⟩
  | vbool b =>
    simp only [txPrint, hsa] at h
    cases h
    exact ⟨fun hc => Value.noConfusion hc, fun s hc => Value.noConfusion hc,
      fun _ _ => ⟨rfl, rfl⟩⟩
  | vstr s =>
    simp only [txPrint, hsa] at h
    cases h
    exact ⟨fun hc => Value.noConfusion hc, fun t hc => Value.noConfusion hc,
      fun _ _ => ⟨rfl, rfl⟩⟩
  | vseq xs =>
    simp only [txPrint, hsa] at h
    cases h
    exact ⟨fun hc => Value.noConfusion hc, fun s hc => Value.noConfusion hc,
      fun _ _ => ⟨rfl, rfl⟩⟩
  | vrec t fs =>
    simp only [txPrint, hsa] at h
    cases h
    exact ⟨fun hc => Value.noConfusion hc, fun s hc => Value.noConfusion hc,
      fun _ _ => ⟨rfl, rfl⟩⟩

theorem txPrint_contract_witness :
    txPrint c2St = .ok c2Res ∧
    c2Res.output = c2St.output ++ htmlEscape (interfaceToString c2St.sa) ∧
    c2Res.warnings = c2St.warnings :=
  ⟨rfl, (txPrint_contract c2St c2Res rfl).2.2
    (fun hc => Value.noConfusion hc) (fun _ hc => Value.noConfusion hc)⟩

/-- C3 (amended): when methodcall resolves no method of the requested
name on the invocant, it sets SA to nil and advances PC, but it records
no warning (the warning exists only on the arity-mismatch branch). -/
theorem txMethodCall_missing_method (st st' : State) (op : Op) (mark : Nat)
    (rest : List Nat)
    (h1 : currentOp? st = some op)
    (h2 : st.marks = mark :: rest)
    (h3 : st.methods (st.stack.getD (mark : Int)) (interfaceToString op.arg) = none)
    (h4 : txMethodCall st = .ok st') :
    st'.sa = .vnil ∧ st'.warnings = st.warnings ∧ st'.pc = st.pc + 1 := by
  simp only [txMethodCall, h1, h2, h3] at h4
  split at h4
  · cases h4
  · split at h4
    · cases h4
    · cases h4
      exact ⟨rfl, rfl, rfl⟩

theorem txMethodCall_missing_method_witness :
    currentOp? c3St = some { opcode := .TXOP_methodcall, arg := .vstr "Foo" } ∧
    c3St.marks = 0 :: [] ∧
    c3St.methods (c3St.stack.getD ((0 : Nat) : Int)) (interfaceToString (.vstr "Foo")) = none ∧
    txMethodCall c3St = .ok c3Res ∧
    c3Res.sa = .vnil ∧ c3Res.warnings = c3St.warnings ∧ c3Res.pc = c3St.pc + 1 :=
  ⟨rfl, rfl, rfl, rfl,
    txMethodCall_missing_method c3St c3Res
      { opcode := .TXOP_methodcall, arg := .vstr "Foo" } 0 [] rfl rfl rfl rfl⟩

/-- C3 counterexample to the claim as stated: on a concrete state whose
invocant has no method `Foo`, methodcall completes with SA nil but the
warning sink stays empty — no warning is recorded. -/
theorem txMethodCall_missing_method_no_warn_cex :
    c3St.methods (Value.vrec 0 []) "Foo" = none ∧
    txMethodCall c3St = .ok c3Res ∧
    c3Res.sa = .vnil ∧
    c3St.warnings = [] ∧
    c3Res.warnings = [] :=
  ⟨rfl, rfl, rfl, rfl, rfl⟩

/-- C4 (amended): on a non-nil record in SA lacking the requested field
(first rune upper-cased), fetch_field_s aborts the render with the
reflect zero-Value panic; it neither warns nor sets SA to nil. -/
theorem txFetchField_missing_field_aborts (st : State) (op : Op) (tyid : Nat)
    (fields : List (String × Value))
    (h1 : st.sa = .vrec tyid fields)
    (h2 : currentOp? st = some op)
    (h3 : fields.lookup (ucfirst (interfaceToString op.arg)) = none) :
    txFetchField st = .error .reflectZeroValue := by
  simp only [txFetchField, h1, h2, h3]

theorem txFetchField_missing_field_aborts_witness :
    c4St.sa = .vrec 0 [("Name", .vstr "Ada")] ∧
    currentOp? c4St = some { opcode := .TXOP_fetch_field_s, arg := .vstr "age" } ∧
    List.lookup (ucfirst (interfaceToString (.vstr "age")))
      [("Name", Value.vstr "Ada")] = none ∧
    txFetchField c4St = .error .reflectZeroValue :=
  ⟨rfl, rfl, rfl,
    txFetchField_missing_field_aborts c4St
      { opcode := .TXOP_fetch_field_s, arg := .vstr "age" } 0
      [("Name", .vstr "Ada")] rfl rfl rfl⟩

/-- C4 counterexample to the claim as stated: on a concrete record
lacking the field, txFetchField returns an error (the render aborts), so
it does not record a warning, set SA to nil and continue. -/
theorem txFetchField_missing_field_cex :
    c4St.sa = .vrec 0 [("Name", .vstr "Ada")] ∧
    txFetchField c4St = .error .reflectZeroValue :=
  ⟨rfl, rfl⟩

/-- C9 (amended): when methodcall completes, the operand stack (storage
and tip cursor), the mark stack, SB, the output, the variable bag and the
frame are all unchanged and PC advances by one; besides SA, only the
warning sink can change (on the arity-mismatch branch). -/
theorem txMethodCall_frame_effect (st st' : State) (h : txMethodCall st = .ok st') :
    st'.stack = st.stack ∧ st'.marks = st.marks ∧ st'.sb = st.sb ∧
    st'.output = st.output ∧ st'.vars = st.vars ∧ st'.frame = st.frame ∧
    st'.pc = st.pc + 1 := by
  simp only [txMethodCall] at h
  repeat' split at h
  all_goals cases h
  all_goals exact ⟨rfl, rfl, rfl, rfl, rfl, rfl, rfl⟩

theorem txMethodCall_frame_effect_witness :
    txMethodCall c9St = .ok c9Res ∧
    c9Res.stack = c9St.stack ∧ c9Res.marks = c9St.marks ∧ c9Res.sb = c9St.sb ∧
    c9Res.output = c9St.output ∧ c9Res.pc = c9St.pc + 1 :=
  ⟨rfl,
    (txMethodCall_frame_effect c9St c9Res rfl).1,
    (txMethodCall_frame_effect c9St c9Res rfl).2.1,
    (txMethodCall_frame_effect c9St c9Res rfl).2.2.1,
    (txMethodCall_frame_effect c9St c9Res rfl).2.2.2.1,
    (txMethodCall_frame_effect c9St c9Res rfl).2.2.2.2.2.2⟩

/-- C9 counterexample to the claim as stated ("writes only SA"): on a
concrete arity-mismatch call, methodcall leaves stack and marks alone but
also writes the warning sink, so SA is not the only state written. -/
theorem txMethodCall_arity_warn_cex :
    txMethodCall c9St = .ok c9Res ∧
    c9St.warnings = [] ∧
    c9Res.warnings = ["Number of arguments do not match"] :=
  ⟨rfl, rfl, rfl⟩

/-- C7: when for_start (with integer argument `id`) completes, the frame
slots read back as: slot `id` nil, slot `id+1` the integer -1, slot
`id+2` the SA sequence (or the empty sequence when SA is not a
sequence), and PC has advanced by one. -/
theorem txForStart_contract (st st' : State) (op : Op) (id : Int)
    (h1 : currentOp? st = some op) (h2 : op.argInt = some id)
    (h3 : txForStart st = .ok st') :
    st'.pc = st.pc + 1 ∧
    st'.frame.GetLvar st'.stack id = .vnil ∧
    st'.frame.GetLvar st'.stack (id + 1) = .vint (-1) ∧
    st'.frame.GetLvar st'.stack (id + 2) =
      (match st.sa with | .vseq xs => Value.vseq xs | _ => .vseq []) := by
  simp only [txForStart, h1, h2] at h3
  split at h3
  next => cases h3
  next s1 e1 =>
    split at h3
    next => cases h3
    next s2 e2 =>
      split at h3
      next => cases h3
      next s3 e3 =>
        cases h3
        replace e1 : st.stack.setV (id - st.frame.mark) .vnil = some s1 := e1
        replace e2 : s1.setV (id + 1 - st.frame.mark) (.vint (-1)) = some s2 := e2
        replace e3 : s2.setV (id + 2 - st.frame.mark)
          (match st.sa with | .vseq xs => Value.vseq xs | _ => .vseq []) = some s3 := e3
        refine ⟨rfl, ?_, ?_, ?_⟩
        · show st.frame.GetLvar s3 id = .vnil
          rw [Frame.GetLvar_eq_getD,
            Stack.getD_setV_ne e3 _ (by omega),
            Stack.getD_setV_ne e2 _ (by omega),
            Stack.getD_setV_self e1]
        · show st.frame.GetLvar s3 (id + 1) = .vint (-1)
          rw [Frame.GetLvar_eq_getD,
            Stack.getD_setV_ne e3 _ (by omega),
            Stack.getD_setV_self e2]
        · show st.frame.GetLvar s3 (id + 2) = _
          rw [Frame.GetLvar_eq_getD, Stack.getD_setV_self e3]

theorem txForStart_contract_witness :
    currentOp? c7St = some { opcode := .TXOP_for_start, arg := .vint 0 } ∧
    Op.argInt { opcode := .TXOP_for_start, arg := .vint 0 } = some 0 ∧
    txForStart c7St = .ok c7Res ∧
    c7Res.pc = c7St.pc + 1 ∧
    c7Res.frame.GetLvar c7Res.stack 0 = .vnil ∧
    c7Res.frame.GetLvar c7Res.stack 1 = .vint (-1) ∧
    c7Res.frame.GetLvar c7Res.stack 2 = .vseq [.vint 9] :=
  ⟨rfl, rfl, rfl,
    (txForStart_contract c7St c7Res _ 0 rfl rfl rfl).1,
    (txForStart_contract c7St c7Res _ 0 rfl rfl rfl).2.1,
    by
      have h := (txForStart_contract c7St c7Res
        { opcode := .TXOP_for_start, arg := .vint 0 } 0 rfl rfl rfl).2.2.1
      simpa using h,
    by
      have h := (txForStart_contract c7St c7Res
        { opcode := .TXOP_for_start, arg := .vint 0 } 0 rfl rfl rfl).2.2.2
      simpa using h⟩

/-- C8: div promotes two signed-integer operands to float and stores
their float quotient in SA, while two unsigned operands divide in
unsigned (truncating) arithmetic and SA stays unsigned; PC advances by
one in both cases. -/
theorem txDiv_promotion (st st' : State) :
    (∀ a b : Int, st.sb = .vint a → st.sa = .vint b → txDiv st = .ok st' →
      st'.sa = .vfloat ((a : Rat) / (b : Rat)) ∧ st'.pc = st.pc + 1) ∧
    (∀ a b : Nat, st.sb = .vuint a → st.sa = .vuint b → txDiv st = .ok st' →
      st'.sa = .vuint (a / b) ∧ st'.pc = st.pc + 1) := by
  constructor
  · intro a b hb ha h
    simp only [txDiv, alignTypesForArithmetic, toNumV, hb, ha] at h
    split at h
    · cases h
    · cases h
      exact ⟨rfl, rfl⟩
  · intro a b hb ha h
    simp only [txDiv, alignTypesForArithmetic, toNumV, hb, ha] at h
    split at h
    · cases h
    · cases h
      exact ⟨rfl, rfl⟩

/-- C6: every opcode handler other than goto, and, for_iter and end
advances PC by exactly one whenever it completes, and end leaves PC
unchanged. -/
theorem exec_pc_advance (op : OpType) (st st' : State) (h : exec op st = .ok st') :
    (op ≠ .TXOP_goto → op ≠ .TXOP_and → op ≠ .TXOP_for_iter → op ≠ .TXOP_end →
      st'.pc = st.pc + 1) ∧
    (op = .TXOP_end → st'.pc = st.pc) := by
  cases op <;>
    simp only [exec] at h <;>
    refine ⟨fun hg ha hf he => ?_, fun hend => ?_⟩ <;>
      first
        | exact absurd rfl hg
        | exact absurd rfl ha
        | exact absurd rfl hf
        | exact absurd rfl he
        | exact OpType.noConfusion hend
        | (try first
            | simp only [txNoop] at h
            | simp only [txNil] at h
            | simp only [txMoveToSb] at h
            | simp only [txMoveFromSb] at h
            | simp only [txLiteral] at h
            | simp only [txFetchSymbol] at h
            | simp only [txFetchField] at h
            | simp only [txMarkRaw] at h
            | simp only [txUnmarkRaw] at h
            | simp only [txPrint] at h
            | simp only [txPrintRaw] at h
            | simp only [txSaveToLvar] at h
            | simp only [txLoadLvar] at h
            | simp only [txAdd] at h
            | simp only [txSub] at h
            | simp only [txMul] at h
            | simp only [txDiv] at h
            | simp only [txForStart] at h
            | simp only [txHtmlEscape] at h
            | simp only [txUriEscape] at h
            | simp only [txEq] at h
            | simp only [txNe] at h
            | simp only [txPopmark] at h
            | simp only [txPushmark] at h
            | simp only [txPush] at h
            | simp only [txMethodCall] at h
            | simp only [txEnd] at h
           repeat' split at h
           all_goals cases h
           all_goals rfl)

theorem exec_pc_advance_witness :
    exec .TXOP_nil baseState = .ok c6Res ∧ c6Res.pc = baseState.pc + 1 ∧
    exec .TXOP_end baseState = .ok baseState ∧ baseState.pc = baseState.pc :=
  ⟨rfl,
    (exec_pc_advance .TXOP_nil baseState c6Res rfl).1
      (fun hc => OpType.noConfusion hc) (fun hc => OpType.noConfusion hc)
      (fun hc => OpType.noConfusion hc) (fun hc => OpType.noConfusion hc),
    rfl,
    (exec_pc_advance .TXOP_end baseState baseState rfl).2 rfl⟩

theorem txDiv_promotion_witness :
    c8IntSt.sb = .vint 3 ∧ c8IntSt.sa = .vint 2 ∧
    txDiv c8IntSt = .ok c8IntRes ∧
    c8IntRes.sa = .vfloat ((3 : Rat) / (2 : Rat)) ∧
    c8USt.sb = .vuint 7 ∧ c8USt.sa = .vuint 2 ∧
    txDiv c8USt = .ok c8URes ∧
    c8URes.sa = .vuint 3 :=
  ⟨rfl, rfl, rfl,
    ((txDiv_promotion c8IntSt c8IntRes).1 3 2 rfl rfl rfl).1,
    rfl, rfl, rfl,
    ((txDiv_promotion c8USt c8URes).2 7 2 rfl rfl rfl).1⟩



